import Mathlib

/-!
Verification development for the inGen explainability module
(`src/ExplanationGenerator.py`).

The Python source is shallowly embedded below.  Log entries are plain
strings (the source reads them with `readlines`, so an entry usually ends
with a newline character).  The regular-expression searches of the source
are embedded as explicit recursive functions over `List Char`:

* `re.search(r"Intent ID: (\d+)", entry)`            → `searchIntentId`
* `re.search(r"Adaptation for Intent ID: \d+ - (.+)", entry)` → `searchAdaptation`
* the search for `Intent ID: \d+ - "(.+)"`          → `searchIntentText`

The embedding follows Python `re` semantics for these concrete patterns:
the search tries every start position from the left; `\d+` is a maximal
nonempty digit run (it cannot backtrack usefully here because in every
pattern the character after `\d+` is a non-digit literal); `.` matches any
character except a newline; the trailing `"` of the intent-text pattern is
matched against the last quote of the greedy `(.+)` run.  `\d` is modelled
as an ASCII digit, which is what the documented log format uses.

Python dictionaries preserve insertion order, and assigning to an existing
key keeps its position, so the correlation dictionary is embedded as an
association list with position-preserving update (`dictSet`).
-/

/-- Substring test: `strContains pat s` is the embedding of Python
`pat in s` for strings (true iff `pat` occurs contiguously in `s`). -/
def strContains (pat : List Char) : List Char → Bool
  | [] => List.isPrefixOf pat []
  | c :: rest => List.isPrefixOf pat (c :: rest) || strContains pat rest

/-- Python substring test `pat in s` on `String`. -/
def strContainsStr (s pat : String) : Bool :=
  strContains pat.data s.data

/-- Consume a literal: returns the remainder of `s` after `lit` when `lit`
is a prefix of `s`, otherwise `none`. -/
def dropLit (lit s : List Char) : Option (List Char) :=
  if List.isPrefixOf lit s then some (s.drop lit.length) else none

/-- Attempt of the pattern `Intent ID: (\d+)` anchored at the head of `s`:
the literal `Intent ID: ` followed by a nonempty maximal digit run, which
is the captured group. -/
def matchIntentIdAt (s : List Char) : Option (List Char) :=
  match dropLit "Intent ID: ".data s with
  | none => none
  | some rest =>
    let ds := rest.takeWhile Char.isDigit
    if ds.isEmpty then none else some ds

/-- Leftmost search for `Intent ID: (\d+)` (the `re.search` of
`_extract_intent_id`), returning the captured digit run. -/
def searchIntentId : List Char → Option (List Char)
  | [] => none
  | c :: rest =>
    match matchIntentIdAt (c :: rest) with
    | some ds => some ds
    | none => searchIntentId rest

/-- Attempt of `Adaptation for Intent ID: \d+ - (.+)` anchored at the head
of `s`.  The captured group is the maximal nonempty run of non-newline
characters after the ` - ` separator. -/
def matchAdaptationAt (s : List Char) : Option (List Char) :=
  match dropLit "Adaptation for Intent ID: ".data s with
  | none => none
  | some r1 =>
    let ds := r1.takeWhile Char.isDigit
    if ds.isEmpty then none
    else
      match dropLit " - ".data (r1.drop ds.length) with
      | none => none
      | some r2 =>
        let t := r2.takeWhile (fun c => c ≠ '\n')
        if t.isEmpty then none else some t

/-- Leftmost search for `Adaptation for Intent ID: \d+ - (.+)` (the
`re.search` of `_extract_adaptation`). -/
def searchAdaptation : List Char → Option (List Char)
  | [] => none
  | c :: rest =>
    match matchAdaptationAt (c :: rest) with
    | some t => some t
    | none => searchAdaptation rest

/-- Characters of `s` strictly before the last `'"'` of `s`, or `none`
when `s` holds no quote.  This realises the backtracking of the greedy
`(.+)` against the closing `"` of the intent-text pattern: the quote that
closes the group is the last quote of the non-newline run. -/
def beforeLastQuote : List Char → Option (List Char)
  | [] => none
  | c :: cs =>
    match beforeLastQuote cs with
    | some l => some (c :: l)
    | none => if c = '"' then some [] else none

/-- Attempt of `Intent ID: \d+ - "(.+)"` anchored at the head of `s`. -/
def matchIntentTextAt (s : List Char) : Option (List Char) :=
  match dropLit "Intent ID: ".data s with
  | none => none
  | some r1 =>
    let ds := r1.takeWhile Char.isDigit
    if ds.isEmpty then none
    else
      match dropLit " - \"".data (r1.drop ds.length) with
      | none => none
      | some r2 =>
        let run := r2.takeWhile (fun c => c ≠ '\n')
        match beforeLastQuote run with
        | none => none
        | some g => if g.isEmpty then none else some g

/-- Leftmost search for `Intent ID: \d+ - "(.+)"` (the `re.search` of
`_extract_intent_text`). -/
def searchIntentText : List Char → Option (List Char)
  | [] => none
  | c :: rest =>
    match matchIntentTextAt (c :: rest) with
    | some g => some g
    | none => searchIntentText rest

/-- Embedding of `_extract_intent_id`: the captured digit run of the first
`Intent ID: (\d+)` match, or the empty string when the pattern is absent. -/
def _extract_intent_id (entry : String) : String :=
  match searchIntentId entry.data with
  | some ds => String.mk ds
  | none => ""

/-- Embedding of `_extract_adaptation`: the captured free text of the first
`Adaptation for Intent ID: \d+ - (.+)` match, or the empty string. -/
def _extract_adaptation (entry : String) : String :=
  match searchAdaptation entry.data with
  | some t => String.mk t
  | none => ""

/-- Embedding of `_extract_intent_text`: the captured quoted text of the
first `Intent ID: \d+ - "(.+)"` match, or the empty string. -/
def _extract_intent_text (entry : String) : String :=
  match searchIntentText entry.data with
  | some g => String.mk g
  | none => ""

/-- The value stored for one intent id: the Python dictionary
`dict(intent=..., adaptations=[...])` of `_extract_intent_adaptations`. -/
structure IntentRecord where
  intent : String
  adaptations : List String
deriving DecidableEq, Repr

/-- The correlation dictionary: a Python `dict` with string keys embedded
as an insertion-ordered association list. -/
abbrev CorrelationTable := List (String × IntentRecord)

/-- Lookup `t[k]` in the embedded dictionary. -/
def dictGet (k : String) : CorrelationTable → Option IntentRecord
  | [] => none
  | (k', v) :: rest => if k' = k then some v else dictGet k rest

/-- Python key-membership `k in t`. -/
def dictMem (k : String) (t : CorrelationTable) : Bool :=
  (dictGet k t).isSome

/-- Python dictionary assignment `t[k] = v`: an existing key keeps its
position and gets the new value, a new key is appended at the end. -/
def dictSet (k : String) (v : IntentRecord) : CorrelationTable → CorrelationTable
  | [] => [(k, v)]
  | (k', v') :: rest =>
    if k' = k then (k, v) :: rest else (k', v') :: dictSet k v rest

/-- Python append to the adaptations list of `t[k]`: the record at key `k` (if any)
gets `a` appended to its adaptation list, in place. -/
def appendAdaptation (k : String) (a : String) : CorrelationTable → CorrelationTable
  | [] => []
  | (k', r) :: rest =>
    if k' = k then (k, { r with adaptations := r.adaptations ++ [a] }) :: rest
    else (k', r) :: appendAdaptation k a rest

/-- Processing of a single entry by the loop body of
`_extract_intent_adaptations` (source lines 238-247): an entry containing
`Intent received` (re)sets the record of its extracted id to a fresh record;
otherwise an entry containing `Adaptation for Intent ID` appends its
adaptation text to the record of its id when that id is already a key, and
is dropped when it is not; all other entries are ignored. -/
def stepEntry (t : CorrelationTable) (entry : String) : CorrelationTable :=
  if strContainsStr entry "Intent received" then
    dictSet (_extract_intent_id entry)
      { intent := _extract_intent_text entry, adaptations := [] } t
  else if strContainsStr entry "Adaptation for Intent ID" then
    let intent_id := _extract_intent_id entry
    if dictMem intent_id t then
      appendAdaptation intent_id (_extract_adaptation entry) t
    else t
  else t

/-- Embedding of `_extract_intent_adaptations` (source lines 227-248). -/
def _extract_intent_adaptations (log_entries : List String) : CorrelationTable :=
  log_entries.foldl stepEntry []

/-- Embedding of `_extract_intent_entries` (source lines 181-195): the
entries containing `Adaptation for Intent ID`, in order. -/
def _extract_intent_entries (log_entries : List String) : List String :=
  log_entries.filter (fun e => strContainsStr e "Adaptation for Intent ID")

/-- Embedding of `_generate_explanation` (source lines 146-163): one
formatted line appended per adaptation-bearing entry. -/
def _generate_explanation (log_entries : List String) : String :=
  (_extract_intent_entries log_entries).foldl
    (fun explanation entry =>
      explanation ++ "System adaptation for Intent ID " ++ _extract_intent_id entry
        ++ ": " ++ _extract_adaptation entry ++ "\n")
    ""

/-- The message list built by the first two statements of
`generate_explanation_prompt` (source lines 220-221): one `system` message,
then one `user` message per entry, in order.  The source constructs this
list and then discards it (see `generate_explanation_prompt` below). -/
def promptMessages (system_prompt : String) (log_entries : List String) :
    List (String × String) :=
  ("system", system_prompt) :: log_entries.map (fun entry => ("user", entry))

/-- Embedding of `generate_explanation_prompt` (source lines 212-225).  The
body evaluates a list comprehension over the variable `log_entries`, which
is bound neither in the method, the class, nor the module, so every call
raises `NameError` before any prompt value is produced; the message list it
was building is `promptMessages`, and even on the (unreachable) success
path the final statement reassigns the prompt to a template built from the
system prompt alone, discarding the messages. -/
def generate_explanation_prompt (_system_prompt : String) :
    Except String (List (String × String)) :=
  Except.error "NameError: name log_entries is not defined"

/-- The fixed HTML/CSS header of `generate_html_explanation` (the first
f-string of source lines 290-326; the doubled braces of the f-string denote
literal braces, written here as escapes). -/
def htmlHeader : String :=
  "\n        <html>\n        <head>\n            <title>System Adaptations Explanation</title>\n            <style>\n                body \x7b\n                    font-family: Arial, sans-serif;\n                    background-color: #f4f4f4;\n                    margin: auto;\n                    max-width: 800px;\n                \x7d\n                h1 \x7b\n                    color: #333;\n                    text-align: center;\n                \x7d\n                h2 \x7b\n                    color: #333;\n                \x7d\n                p \x7b\n                    color: #333;\n                \x7d\n                ul \x7b\n                    list-style-type: none;\n                    padding: 0;\n                \x7d\n                li \x7b\n                    margin-bottom: 10px;\n                    padding: 10px;\n                    background-color: #fff;\n                    border-radius: 5px;\n                    box-shadow: 0 2px 5px rgba(0, 0, 0, 0.1);\n                \x7d\n            </style>\n        </head>\n        <body>\n            <h1>Explanation of System Adaptations</h1>\n        "

/-- The HTML contributed for one table entry by one iteration of the loop
of `generate_html_explanation` (source lines 328-337): the per-intent
f-string, then one `<li>` item per adaptation, then the closing `</ul>`.
Field values are interpolated verbatim. -/
def sectionFor (intent_id : String) (details : IntentRecord) : String :=
  "\n            <h2>Intent ID: " ++ intent_id
    ++ "</h2>\n            <p><strong>Intent:</strong> " ++ details.intent
    ++ "</p>\n            <p><strong>Adaptations:</strong></p>\n            <ul>\n            "
    ++ String.join (details.adaptations.map (fun adaptation => "<li>" ++ adaptation ++ "</li>"))
    ++ "</ul>"

/-- Embedding of the rendering part of `generate_html_explanation` (source
lines 290-341), as a function of the correlation table (the source first
computes the table from the log file and then renders it). -/
def generate_html_explanation (intent_adaptations : CorrelationTable) : String :=
  (intent_adaptations.foldl
      (fun html_content kv => html_content ++ sectionFor kv.1 kv.2) htmlHeader)
    ++ "</body></html>"

/-- The rendered sections, one per correlation-table entry. -/
def sections (t : CorrelationTable) : List String :=
  t.map (fun kv => sectionFor kv.1 kv.2)

/-- First-occurrence deduplication with an accumulator of already-seen
keys.  Used to express the insertion order of the correlation table. -/
def dedupFirstAux (seen : List String) : List String → List String
  | [] => []
  | x :: xs =>
    if x ∈ seen then dedupFirstAux seen xs
    else x :: dedupFirstAux (x :: seen) xs

/-- Deduplication keeping the first occurrence of each element. -/
def dedupFirst (l : List String) : List String :=
  dedupFirstAux [] l

/-- The ids of the `Intent received` entries, in order of first occurrence.
This is the insertion order the correlation table actually realises. -/
def receivedIds (log_entries : List String) : List String :=
  dedupFirst
    ((log_entries.filter (fun e => strContainsStr e "Intent received")).map _extract_intent_id)

/-- The distinct intent ids referenced anywhere in the lines, whether by an
intent-received line or by an adaptation line, in order of first
occurrence. -/
def referencedIds (log_entries : List String) : List String :=
  dedupFirst
    ((log_entries.filter
        (fun e => strContainsStr e "Intent received" || strContainsStr e "Adaptation for Intent ID")).map
      _extract_intent_id)

/-- True of an entry that the correlator treats as an intent-received
event. -/
def isReceivedEvent (entry : String) : Bool :=
  strContainsStr entry "Intent received"

/-- True of an entry that the correlator treats as an adaptation event:
the `elif` branch requires the `Intent received` test to have failed. -/
def isAdaptationEvent (entry : String) : Bool :=
  !strContainsStr entry "Intent received" && strContainsStr entry "Adaptation for Intent ID"

/-- The adaptation texts that the entries of `ls` contribute to the record
of `id`, in order of appearance. -/
def adaptationTexts (id : String) (ls : List String) : List String :=
  (ls.filter (fun e => isAdaptationEvent e && (_extract_intent_id e == id))).map
    _extract_adaptation

/-! ## Substring infrastructure -/

theorem isPrefixOf_append_of {p s : List Char} (t : List Char)
    (h : List.isPrefixOf p s = true) : List.isPrefixOf p (s ++ t) = true := by
  induction p generalizing s with
  | nil => simp [List.isPrefixOf]
  | cons c p ih =>
    cases s with
    | nil => simp [List.isPrefixOf] at h
    | cons d s =>
      simp only [List.isPrefixOf, List.cons_append, Bool.and_eq_true] at h ⊢
      exact ⟨h.1, ih h.2⟩

theorem isPrefixOf_self_append (p t : List Char) :
    List.isPrefixOf p (p ++ t) = true := by
  induction p with
  | nil => simp [List.isPrefixOf]
  | cons c p ih => simp [List.isPrefixOf, ih]

theorem strContains_nil_pat (s : List Char) : strContains [] s = true := by
  cases s <;> simp [strContains, List.isPrefixOf]

theorem strContains_of_isPrefixOf {p s : List Char}
    (h : List.isPrefixOf p s = true) : strContains p s = true := by
  cases s with
  | nil => simpa [strContains] using h
  | cons c rest => simp [strContains, h]

theorem strContains_cons_of {p s : List Char} (c : Char)
    (h : strContains p s = true) : strContains p (c :: s) = true := by
  simp [strContains, h]

theorem strContains_append_right {p t : List Char} (s : List Char)
    (h : strContains p t = true) : strContains p (s ++ t) = true := by
  induction s with
  | nil => simpa using h
  | cons c s ih => exact strContains_cons_of c ih

theorem strContains_self_append (p t : List Char) :
    strContains p (p ++ t) = true :=
  strContains_of_isPrefixOf (isPrefixOf_self_append p t)

theorem strContains_append_left {p s : List Char} (t : List Char)
    (h : strContains p s = true) : strContains p (s ++ t) = true := by
  induction s with
  | nil =>
    have hp : List.isPrefixOf p ([] : List Char) = true := by simpa [strContains] using h
    cases p with
    | nil => exact strContains_nil_pat t
    | cons c p => simp [List.isPrefixOf] at hp
  | cons c s ih =>
    simp only [strContains, Bool.or_eq_true] at h
    rcases h with h | h
    · exact strContains_of_isPrefixOf (isPrefixOf_append_of t h)
    · exact strContains_cons_of c (ih h)

theorem scontains_append_right {t pat : String} (s : String)
    (h : strContainsStr t pat = true) : strContainsStr (s ++ t) pat = true := by
  unfold strContainsStr at h ⊢
  rw [String.data_append]
  exact strContains_append_right s.data h

theorem scontains_append_left {s pat : String} (t : String)
    (h : strContainsStr s pat = true) : strContainsStr (s ++ t) pat = true := by
  unfold strContainsStr at h ⊢
  rw [String.data_append]
  exact strContains_append_left t.data h

theorem scontains_self_append (pat t : String) :
    strContainsStr (pat ++ t) pat = true := by
  unfold strContainsStr
  rw [String.data_append]
  exact strContains_self_append pat.data t.data

theorem scontains_mid (x pat y : String) :
    strContainsStr (x ++ (pat ++ y)) pat = true :=
  scontains_append_right x (scontains_self_append pat y)

theorem scontains_embed (x y : String) {s pat : String}
    (h : strContainsStr s pat = true) :
    strContainsStr (x ++ (s ++ y)) pat = true :=
  scontains_append_right x (scontains_append_left y h)

/-! ## String join and fold lemmas -/

theorem sjoin_cons (s : String) (l : List String) :
    String.join (s :: l) = s ++ String.join l := by
  apply String.ext
  simp [String.data_join, String.data_append]

theorem foldl_append_join {α : Type} (f : α → String) :
    ∀ (l : List α) (acc : String),
      List.foldl (fun a e => a ++ f e) acc l = acc ++ String.join (l.map f)
  | [], acc => by simp [String.join]
  | x :: l, acc => by
    rw [List.foldl_cons, foldl_append_join f l (acc ++ f x), List.map_cons, sjoin_cons,
      String.append_assoc]

theorem join_decomp {α : Type} (f : α → String) {a : α} {l : List α} (h : a ∈ l) :
    ∃ x y : String, String.join (l.map f) = x ++ (f a ++ y) := by
  obtain ⟨s, t, rfl⟩ := List.append_of_mem h
  refine ⟨String.join (s.map f), String.join (t.map f), ?_⟩
  apply String.ext
  simp [String.data_join, String.data_append]

/-! ## Dictionary lemmas -/

theorem dictGet_set_self (k : String) (v : IntentRecord) :
    ∀ t : CorrelationTable, dictGet k (dictSet k v t) = some v
  | [] => by simp [dictSet, dictGet]
  | (k', v') :: rest => by
    by_cases h : k' = k
    · simp [dictSet, dictGet, h]
    · simp [dictSet, dictGet, h, dictGet_set_self k v rest]

theorem dictGet_set_of_ne {k k' : String} (h : k' ≠ k) (v : IntentRecord) :
    ∀ t : CorrelationTable, dictGet k' (dictSet k v t) = dictGet k' t
  | [] => by
    have h' : ¬ k = k' := fun hh => h hh.symm
    simp [dictSet, dictGet, h']
  | (k'', v'') :: rest => by
    by_cases h2 : k'' = k
    · subst h2
      have h' : ¬ k'' = k' := fun hh => h hh.symm
      simp [dictSet, dictGet, h']
    · simp only [dictSet, if_neg h2, dictGet]
      by_cases h3 : k'' = k'
      · simp [h3]
      · simp [h3, dictGet_set_of_ne h v rest]

theorem dictGet_appendAdaptation_self (k a : String) :
    ∀ t : CorrelationTable,
      dictGet k (appendAdaptation k a t)
        = (dictGet k t).map (fun r => { r with adaptations := r.adaptations ++ [a] })
  | [] => by simp [appendAdaptation, dictGet]
  | (k', r) :: rest => by
    by_cases h : k' = k
    · simp [appendAdaptation, dictGet, h]
    · simp [appendAdaptation, dictGet, h, dictGet_appendAdaptation_self k a rest]

theorem dictGet_appendAdaptation_of_ne {k k' : String} (h : k' ≠ k) (a : String) :
    ∀ t : CorrelationTable, dictGet k' (appendAdaptation k a t) = dictGet k' t
  | [] => by simp [appendAdaptation, dictGet]
  | (k'', r) :: rest => by
    by_cases h2 : k'' = k
    · subst h2
      have h' : ¬ k'' = k' := fun hh => h hh.symm
      simp [appendAdaptation, dictGet, h']
    · simp only [appendAdaptation, if_neg h2, dictGet]
      by_cases h3 : k'' = k'
      · simp [h3]
      · simp [h3, dictGet_appendAdaptation_of_ne h a rest]

/-- The insertion-ordered key list of the embedded dictionary. -/
def keysOf (t : CorrelationTable) : List String :=
  t.map Prod.fst

theorem keysOf_nil : keysOf [] = [] := rfl

theorem keysOf_cons (k : String) (v : IntentRecord) (rest : CorrelationTable) :
    keysOf ((k, v) :: rest) = k :: keysOf rest := rfl

theorem dictMem_iff_mem_keysOf (k : String) :
    ∀ t : CorrelationTable, dictMem k t = true ↔ k ∈ keysOf t
  | [] => by simp [dictMem, dictGet, keysOf]
  | (k', v) :: rest => by
    rw [keysOf_cons]
    by_cases h : k' = k
    · simp [dictMem, dictGet, h]
    · have h' : ¬ k = k' := fun hh => h hh.symm
      simp only [dictMem, dictGet, if_neg h, List.mem_cons]
      rw [← dictMem]
      simp [dictMem_iff_mem_keysOf k rest, h']

theorem keysOf_dictSet_of_mem {k : String} (v : IntentRecord) :
    ∀ {t : CorrelationTable}, k ∈ keysOf t → keysOf (dictSet k v t) = keysOf t
  | [], h => by simp [keysOf] at h
  | (k', v') :: rest, h => by
    by_cases h2 : k' = k
    · subst h2
      simp [dictSet, keysOf_cons]
    · have hk : k ∈ keysOf rest := by
        rw [keysOf_cons] at h
        cases List.mem_cons.mp h with
        | inl hh => exact absurd hh.symm h2
        | inr hh => exact hh
      rw [show dictSet k v ((k', v') :: rest) = (k', v') :: dictSet k v rest by
        simp [dictSet, h2]]
      rw [keysOf_cons, keysOf_cons, keysOf_dictSet_of_mem v hk]

theorem keysOf_dictSet_of_not_mem {k : String} (v : IntentRecord) :
    ∀ {t : CorrelationTable}, k ∉ keysOf t → keysOf (dictSet k v t) = keysOf t ++ [k]
  | [], _ => by simp [dictSet, keysOf]
  | (k', v') :: rest, h => by
    rw [keysOf_cons] at h
    have h2 : ¬ k' = k := by
      intro hh
      exact h (by simp [hh])
    have hk : k ∉ keysOf rest := by
      intro hh
      exact h (List.mem_cons.mpr (Or.inr hh))
    rw [show dictSet k v ((k', v') :: rest) = (k', v') :: dictSet k v rest by
      simp [dictSet, h2]]
    rw [keysOf_cons, keysOf_cons, keysOf_dictSet_of_not_mem v hk, List.cons_append]

theorem keysOf_appendAdaptation (k a : String) :
    ∀ t : CorrelationTable, keysOf (appendAdaptation k a t) = keysOf t
  | [] => by simp [appendAdaptation]
  | (k', r) :: rest => by
    by_cases h : k' = k
    · subst h
      simp [appendAdaptation, keysOf_cons]
    · rw [show appendAdaptation k a ((k', r) :: rest) = (k', r) :: appendAdaptation k a rest by
        simp [appendAdaptation, h]]
      rw [keysOf_cons, keysOf_cons, keysOf_appendAdaptation k a rest]

/-! ## Step characterisation -/

theorem stepEntry_received {entry : String}
    (h : strContainsStr entry "Intent received" = true) (t : CorrelationTable) :
    stepEntry t entry
      = dictSet (_extract_intent_id entry)
          { intent := _extract_intent_text entry, adaptations := [] } t := by
  simp [stepEntry, h]

theorem stepEntry_adaptation {entry : String}
    (h1 : strContainsStr entry "Intent received" = false)
    (h2 : strContainsStr entry "Adaptation for Intent ID" = true) (t : CorrelationTable) :
    stepEntry t entry
      = if dictMem (_extract_intent_id entry) t then
          appendAdaptation (_extract_intent_id entry) (_extract_adaptation entry) t
        else t := by
  simp [stepEntry, h1, h2]

theorem stepEntry_other {entry : String}
    (h1 : strContainsStr entry "Intent received" = false)
    (h2 : strContainsStr entry "Adaptation for Intent ID" = false) (t : CorrelationTable) :
    stepEntry t entry = t := by
  simp [stepEntry, h1, h2]

theorem dedupFirstAux_congr {s₁ s₂ : List String} (h : ∀ x, x ∈ s₁ ↔ x ∈ s₂) :
    ∀ l : List String, dedupFirstAux s₁ l = dedupFirstAux s₂ l
  | [] => rfl
  | x :: xs => by
    by_cases hx : x ∈ s₁
    · simp [dedupFirstAux, hx, (h x).mp hx, dedupFirstAux_congr h xs]
    · have hx2 : x ∉ s₂ := fun hh => hx ((h x).mpr hh)
      have h' : ∀ y, y ∈ x :: s₁ ↔ y ∈ x :: s₂ := by
        intro y
        simp [h y]
      simp [dedupFirstAux, hx, hx2, dedupFirstAux_congr h' xs]

/-! ## Correlator invariants -/

theorem keysOf_foldl_stepEntry :
    ∀ (ls : List String) (t : CorrelationTable),
      keysOf (List.foldl stepEntry t ls)
        = keysOf t
            ++ dedupFirstAux (keysOf t)
              ((ls.filter (fun e => strContainsStr e "Intent received")).map _extract_intent_id)
  | [], t => by simp [dedupFirstAux]
  | e :: ls, t => by
    rw [List.foldl_cons]
    cases hr : strContainsStr e "Intent received" with
    | true =>
      rw [stepEntry_received hr, List.filter_cons, if_pos hr, List.map_cons]
      by_cases hm : _extract_intent_id e ∈ keysOf t
      · rw [keysOf_foldl_stepEntry ls _, keysOf_dictSet_of_mem _ hm]
        rw [show dedupFirstAux (keysOf t)
            (_extract_intent_id e
              :: (ls.filter (fun e => strContainsStr e "Intent received")).map _extract_intent_id)
          = dedupFirstAux (keysOf t)
              ((ls.filter (fun e => strContainsStr e "Intent received")).map _extract_intent_id) by
          simp [dedupFirstAux, hm]]
      · rw [keysOf_foldl_stepEntry ls _, keysOf_dictSet_of_not_mem _ hm]
        rw [dedupFirstAux_congr
          (show ∀ x, x ∈ keysOf t ++ [_extract_intent_id e] ↔ x ∈ _extract_intent_id e :: keysOf t by
            intro x
            simp [or_comm])
          ((ls.filter (fun e => strContainsStr e "Intent received")).map _extract_intent_id)]
        rw [show dedupFirstAux (keysOf t)
            (_extract_intent_id e
              :: (ls.filter (fun e => strContainsStr e "Intent received")).map _extract_intent_id)
          = _extract_intent_id e
              :: dedupFirstAux (_extract_intent_id e :: keysOf t)
                ((ls.filter (fun e => strContainsStr e "Intent received")).map _extract_intent_id) by
          simp [dedupFirstAux, hm]]
        simp
    | false =>
      have hkeys : keysOf (stepEntry t e) = keysOf t := by
        cases ha : strContainsStr e "Adaptation for Intent ID" with
        | true =>
          rw [stepEntry_adaptation hr ha]
          by_cases hm : dictMem (_extract_intent_id e) t = true
          · rw [if_pos hm, keysOf_appendAdaptation]
          · rw [if_neg hm]
        | false => rw [stepEntry_other hr ha]
      rw [List.filter_cons, if_neg (by simp [hr]), keysOf_foldl_stepEntry ls _, hkeys]

theorem correlate_keys (ls : List String) :
    keysOf (_extract_intent_adaptations ls) = receivedIds ls := by
  unfold _extract_intent_adaptations receivedIds dedupFirst
  rw [keysOf_foldl_stepEntry ls [], keysOf_nil, List.nil_append]

theorem dictGet_foldl_none :
    ∀ (ls : List String) (t : CorrelationTable) {id : String},
      dictGet id t = none →
      (∀ e ∈ ls, strContainsStr e "Intent received" = true → _extract_intent_id e ≠ id) →
      dictGet id (List.foldl stepEntry t ls) = none
  | [], t, id, h, _ => by simpa using h
  | e :: ls, t, id, h, hrec => by
    rw [List.foldl_cons]
    have hrec' : ∀ e' ∈ ls, strContainsStr e' "Intent received" = true → _extract_intent_id e' ≠ id :=
      fun e' he' => hrec e' (List.mem_cons_of_mem _ he')
    have hstep : dictGet id (stepEntry t e) = none := by
      cases hr : strContainsStr e "Intent received" with
      | true =>
        have hne : _extract_intent_id e ≠ id := hrec e (List.mem_cons_self e ls) hr
        rw [stepEntry_received hr, dictGet_set_of_ne (Ne.symm hne)]
        exact h
      | false =>
        cases ha : strContainsStr e "Adaptation for Intent ID" with
        | true =>
          rw [stepEntry_adaptation hr ha]
          by_cases hm : dictMem (_extract_intent_id e) t = true
          · rw [if_pos hm]
            by_cases hid : _extract_intent_id e = id
            · rw [hid] at hm
              unfold dictMem at hm
              rw [h] at hm
              simp at hm
            · rw [dictGet_appendAdaptation_of_ne (Ne.symm hid)]
              exact h
          · rw [if_neg hm]
            exact h
        | false =>
          rw [stepEntry_other hr ha]
          exact h
    exact dictGet_foldl_none ls _ hstep hrec'

theorem dictGet_foldl_trace :
    ∀ (ls : List String) (t : CorrelationTable) {id : String} {rec : IntentRecord},
      dictGet id t = some rec →
      (∀ e ∈ ls, strContainsStr e "Intent received" = true → _extract_intent_id e ≠ id) →
      dictGet id (List.foldl stepEntry t ls)
        = some { intent := rec.intent, adaptations := rec.adaptations ++ adaptationTexts id ls }
  | [], t, id, rec, h, _ => by simpa [adaptationTexts] using h
  | e :: ls, t, id, rec, h, hrec => by
    rw [List.foldl_cons]
    have hrec' : ∀ e' ∈ ls, strContainsStr e' "Intent received" = true → _extract_intent_id e' ≠ id :=
      fun e' he' => hrec e' (List.mem_cons_of_mem _ he')
    cases hr : strContainsStr e "Intent received" with
    | true =>
      have hne : _extract_intent_id e ≠ id := hrec e (List.mem_cons_self e ls) hr
      have hstep : dictGet id (stepEntry t e) = some rec := by
        rw [stepEntry_received hr, dictGet_set_of_ne (Ne.symm hne)]
        exact h
      have hat : adaptationTexts id (e :: ls) = adaptationTexts id ls := by
        unfold adaptationTexts isAdaptationEvent
        rw [List.filter_cons, if_neg (by simp [hr])]
      rw [hat]
      exact dictGet_foldl_trace ls _ hstep hrec'
    | false =>
      cases ha : strContainsStr e "Adaptation for Intent ID" with
      | true =>
        by_cases hid : _extract_intent_id e = id
        · have hm : dictMem (_extract_intent_id e) t = true := by
            rw [hid]
            unfold dictMem
            rw [h]
            rfl
          have hstep : dictGet id (stepEntry t e)
              = some { intent := rec.intent,
                       adaptations := rec.adaptations ++ [_extract_adaptation e] } := by
            rw [stepEntry_adaptation hr ha, if_pos hm, hid, dictGet_appendAdaptation_self, h]
            rfl
          have hat : adaptationTexts id (e :: ls)
              = _extract_adaptation e :: adaptationTexts id ls := by
            unfold adaptationTexts isAdaptationEvent
            rw [List.filter_cons, if_pos (by simp [hr, ha, hid]), List.map_cons]
          rw [hat, dictGet_foldl_trace ls _ hstep hrec']
          simp
        · have hstep : dictGet id (stepEntry t e) = some rec := by
            rw [stepEntry_adaptation hr ha]
            by_cases hm : dictMem (_extract_intent_id e) t = true
            · rw [if_pos hm, dictGet_appendAdaptation_of_ne (Ne.symm hid)]
              exact h
            · rw [if_neg hm]
              exact h
          have hat : adaptationTexts id (e :: ls) = adaptationTexts id ls := by
            unfold adaptationTexts isAdaptationEvent
            rw [List.filter_cons, if_neg (by simp [hid])]
          rw [hat]
          exact dictGet_foldl_trace ls _ hstep hrec'
      | false =>
        have hstep : stepEntry t e = t := stepEntry_other hr ha t
        have hat : adaptationTexts id (e :: ls) = adaptationTexts id ls := by
          unfold adaptationTexts isAdaptationEvent
          rw [List.filter_cons, if_neg (by simp [ha])]
        rw [hat, hstep]
        exact dictGet_foldl_trace ls t h hrec'

/-! ## Extraction lemmas -/

theorem dropLit_eq_drop {lit s rest : List Char} (h : dropLit lit s = some rest) :
    rest = s.drop lit.length := by
  by_cases hp : List.isPrefixOf lit s = true
  · simpa [dropLit, hp] using (Option.some.inj (by simpa [dropLit, hp] using h)).symm
  · simp [dropLit, hp] at h

theorem mem_of_mem_dropLit {lit s rest : List Char} (h : dropLit lit s = some rest)
    {c : Char} (hc : c ∈ rest) : c ∈ s := by
  rw [dropLit_eq_drop h] at hc
  exact List.mem_of_mem_drop hc

theorem matchIntentIdAt_none_of_noDigit {s : List Char}
    (h : ∀ c ∈ s, c.isDigit = false) : matchIntentIdAt s = none := by
  unfold matchIntentIdAt
  cases hd : dropLit "Intent ID: ".data s with
  | none => rfl
  | some rest =>
    cases hw : rest.takeWhile Char.isDigit with
    | nil => simp [hw]
    | cons c tl =>
      have hmem : c ∈ rest.takeWhile Char.isDigit := by
        rw [hw]
        exact List.mem_cons_self c tl
      have hcd : c.isDigit = true := List.mem_takeWhile_imp hmem
      have hcr : c ∈ rest := by
        have hsplit := List.takeWhile_append_dropWhile Char.isDigit rest
        rw [← hsplit]
        exact List.mem_append_left _ hmem
      simp [h c (mem_of_mem_dropLit hd hcr)] at hcd

theorem matchAdaptationAt_none_of_noDigit {s : List Char}
    (h : ∀ c ∈ s, c.isDigit = false) : matchAdaptationAt s = none := by
  unfold matchAdaptationAt
  cases hd : dropLit "Adaptation for Intent ID: ".data s with
  | none => rfl
  | some rest =>
    cases hw : rest.takeWhile Char.isDigit with
    | nil => simp [hw]
    | cons c tl =>
      have hmem : c ∈ rest.takeWhile Char.isDigit := by
        rw [hw]
        exact List.mem_cons_self c tl
      have hcd : c.isDigit = true := List.mem_takeWhile_imp hmem
      have hcr : c ∈ rest := by
        have hsplit := List.takeWhile_append_dropWhile Char.isDigit rest
        rw [← hsplit]
        exact List.mem_append_left _ hmem
      simp [h c (mem_of_mem_dropLit hd hcr)] at hcd

theorem matchIntentTextAt_none_of_noDigit {s : List Char}
    (h : ∀ c ∈ s, c.isDigit = false) : matchIntentTextAt s = none := by
  unfold matchIntentTextAt
  cases hd : dropLit "Intent ID: ".data s with
  | none => rfl
  | some rest =>
    cases hw : rest.takeWhile Char.isDigit with
    | nil => simp [hw]
    | cons c tl =>
      have hmem : c ∈ rest.takeWhile Char.isDigit := by
        rw [hw]
        exact List.mem_cons_self c tl
      have hcd : c.isDigit = true := List.mem_takeWhile_imp hmem
      have hcr : c ∈ rest := by
        have hsplit := List.takeWhile_append_dropWhile Char.isDigit rest
        rw [← hsplit]
        exact List.mem_append_left _ hmem
      simp [h c (mem_of_mem_dropLit hd hcr)] at hcd

theorem searchIntentId_none_of_noDigit :
    ∀ {s : List Char}, (∀ c ∈ s, c.isDigit = false) → searchIntentId s = none
  | [], _ => rfl
  | c :: rest, h => by
    have h' : ∀ x ∈ rest, x.isDigit = false := fun x hx => h x (List.mem_cons_of_mem c hx)
    simp only [searchIntentId, matchIntentIdAt_none_of_noDigit h]
    exact searchIntentId_none_of_noDigit h'

theorem searchAdaptation_none_of_noDigit :
    ∀ {s : List Char}, (∀ c ∈ s, c.isDigit = false) → searchAdaptation s = none
  | [], _ => rfl
  | c :: rest, h => by
    have h' : ∀ x ∈ rest, x.isDigit = false := fun x hx => h x (List.mem_cons_of_mem c hx)
    simp only [searchAdaptation, matchAdaptationAt_none_of_noDigit h]
    exact searchAdaptation_none_of_noDigit h'

theorem searchIntentText_none_of_noDigit :
    ∀ {s : List Char}, (∀ c ∈ s, c.isDigit = false) → searchIntentText s = none
  | [], _ => rfl
  | c :: rest, h => by
    have h' : ∀ x ∈ rest, x.isDigit = false := fun x hx => h x (List.mem_cons_of_mem c hx)
    simp only [searchIntentText, matchIntentTextAt_none_of_noDigit h]
    exact searchIntentText_none_of_noDigit h'

theorem matchIntentTextAt_none_of_idNone {s : List Char}
    (h : matchIntentIdAt s = none) : matchIntentTextAt s = none := by
  unfold matchIntentIdAt at h
  unfold matchIntentTextAt
  cases hd : dropLit "Intent ID: ".data s with
  | none => rfl
  | some rest =>
    rw [hd] at h
    cases hw : rest.takeWhile Char.isDigit with
    | nil => simp [hw]
    | cons c tl => simp [hw] at h

theorem searchIntentText_none_of_idNone :
    ∀ {s : List Char}, searchIntentId s = none → searchIntentText s = none
  | [], _ => rfl
  | c :: rest, h => by
    have h1 : matchIntentIdAt (c :: rest) = none ∧ searchIntentId rest = none := by
      unfold searchIntentId at h
      cases hm : matchIntentIdAt (c :: rest) with
      | some ds =>
        rw [hm] at h
        simp at h
      | none =>
        rw [hm] at h
        exact ⟨rfl, h⟩
    simp only [searchIntentText, matchIntentTextAt_none_of_idNone h1.1]
    exact searchIntentText_none_of_idNone h1.2

theorem extract_intent_id_eq_empty {s : String} (h : searchIntentId s.data = none) :
    _extract_intent_id s = "" := by
  simp [_extract_intent_id, h]

theorem extract_intent_text_eq_empty {s : String} (h : searchIntentId s.data = none) :
    _extract_intent_text s = "" := by
  simp [_extract_intent_text, searchIntentText_none_of_idNone h]

theorem extract_adaptation_eq_empty {s : String} (h : searchAdaptation s.data = none) :
    _extract_adaptation s = "" := by
  simp [_extract_adaptation, h]

/-! ## Renderer decomposition -/

theorem generate_html_explanation_eq (t : CorrelationTable) :
    generate_html_explanation t
      = htmlHeader ++ (String.join (sections t) ++ "</body></html>") := by
  unfold generate_html_explanation sections
  rw [foldl_append_join (fun kv => sectionFor kv.1 kv.2) t htmlHeader, String.append_assoc]

theorem sectionFor_decomp_h2 (intent_id : String) (details : IntentRecord) :
    sectionFor intent_id details
      = "\n            "
          ++ (("<h2>Intent ID: " ++ intent_id ++ "</h2>")
            ++ ("\n            <p><strong>Intent:</strong> " ++ details.intent
              ++ "</p>\n            <p><strong>Adaptations:</strong></p>\n            <ul>\n            "
              ++ String.join (details.adaptations.map (fun a => "<li>" ++ a ++ "</li>"))
              ++ "</ul>")) := by
  unfold sectionFor
  rw [show ("\n            <h2>Intent ID: " : String) = "\n            " ++ "<h2>Intent ID: " from rfl,
    show ("</h2>\n            <p><strong>Intent:</strong> " : String)
      = "</h2>" ++ "\n            <p><strong>Intent:</strong> " from rfl]
  simp only [String.append_assoc]

theorem contains_h2_sectionFor (intent_id : String) (details : IntentRecord) :
    strContainsStr (sectionFor intent_id details)
      ("<h2>Intent ID: " ++ intent_id ++ "</h2>") = true := by
  rw [sectionFor_decomp_h2]
  exact scontains_mid _ _ _

theorem sectionFor_decomp_intent (intent_id : String) (details : IntentRecord) :
    sectionFor intent_id details
      = ("\n            <h2>Intent ID: " ++ intent_id ++ "</h2>\n            ")
          ++ (("<p><strong>Intent:</strong> " ++ details.intent ++ "</p>")
            ++ ("\n            <p><strong>Adaptations:</strong></p>\n            <ul>\n            "
              ++ String.join (details.adaptations.map (fun a => "<li>" ++ a ++ "</li>"))
              ++ "</ul>")) := by
  unfold sectionFor
  rw [show ("</h2>\n            <p><strong>Intent:</strong> " : String)
      = "</h2>\n            " ++ "<p><strong>Intent:</strong> " from rfl,
    show ("</p>\n            <p><strong>Adaptations:</strong></p>\n            <ul>\n            " : String)
      = "</p>" ++ "\n            <p><strong>Adaptations:</strong></p>\n            <ul>\n            " from rfl]
  simp only [String.append_assoc]

theorem contains_intent_sectionFor (intent_id : String) (details : IntentRecord) :
    strContainsStr (sectionFor intent_id details)
      ("<p><strong>Intent:</strong> " ++ details.intent ++ "</p>") = true := by
  rw [sectionFor_decomp_intent]
  exact scontains_mid _ _ _

theorem contains_li_sectionFor (intent_id : String) (details : IntentRecord)
    {a : String} (ha : a ∈ details.adaptations) :
    strContainsStr (sectionFor intent_id details) ("<li>" ++ a ++ "</li>") = true := by
  obtain ⟨x, y, hxy⟩ := join_decomp (fun a => "<li>" ++ a ++ "</li>") ha
  have hdecomp : sectionFor intent_id details
      = ("\n            <h2>Intent ID: " ++ intent_id
          ++ "</h2>\n            <p><strong>Intent:</strong> " ++ details.intent
          ++ "</p>\n            <p><strong>Adaptations:</strong></p>\n            <ul>\n            "
          ++ x)
        ++ (("<li>" ++ a ++ "</li>") ++ (y ++ "</ul>")) := by
    unfold sectionFor
    rw [hxy]
    simp only [String.append_assoc]
  rw [hdecomp]
  exact scontains_mid _ _ _

theorem contains_of_mem_table {t : CorrelationTable} {intent_id : String}
    {details : IntentRecord} {pat : String} (hmem : (intent_id, details) ∈ t)
    (h : strContainsStr (sectionFor intent_id details) pat = true) :
    strContainsStr (generate_html_explanation t) pat = true := by
  obtain ⟨x, y, hxy⟩ :=
    join_decomp (fun kv : String × IntentRecord => sectionFor kv.1 kv.2) hmem
  have hdoc : generate_html_explanation t
      = (htmlHeader ++ x) ++ (sectionFor intent_id details ++ (y ++ "</body></html>")) := by
    rw [generate_html_explanation_eq]
    unfold sections
    rw [hxy]
    simp only [String.append_assoc]
  rw [hdoc]
  exact scontains_embed _ _ h

/-! ## Concrete log lines for witnesses and counterexamples -/

/-- An adaptation line whose intent id 099 never occurs in any
intent-received line. -/
def adaptOnlyLine : String :=
  "2024-02-20T09:07:15.432Z [EnergyOptimizationAgent] INFO: Adaptation for Intent ID: 099 - Energy reduced by 15%.\n"

/-- First intent-received line for id 001. -/
def recvLine001a : String :=
  "2024-02-20T09:01:15.432Z [inChat] INFO: Intent received - Intent ID: 001 - \"Reduce energy use\"\n"

/-- An adaptation line for id 001. -/
def adaptLine001 : String :=
  "2024-02-20T09:02:30.456Z [EnergyOptimizationAgent] INFO: Adaptation for Intent ID: 001 - Workload tuned\n"

/-- Second intent-received line for id 001 with different text. -/
def recvLine001b : String :=
  "2024-02-20T09:05:00.123Z [inChat] INFO: Intent received - Intent ID: 001 - \"Reduce cost\"\n"

/-- Intent-received line for id 002. -/
def recvLine002 : String :=
  "2024-02-20T09:05:00.123Z [inChat] INFO: Intent received - Intent ID: 002 - \"Minimize footprint\"\n"

/-- An adaptation line for id 001 occurring before its receipt. -/
def adaptLine001early : String :=
  "2024-02-20T08:59:00.000Z [EnergyOptimizationAgent] INFO: Adaptation for Intent ID: 001 - Early action\n"

/-- A later adaptation line for id 001. -/
def adaptA : String :=
  "2024-02-20T09:06:00.000Z [CloudSchedulingAgent] INFO: Adaptation for Intent ID: 001 - Adjusted schedule\n"

/-- Another later adaptation line for id 001. -/
def adaptB : String :=
  "2024-02-20T09:07:00.000Z [CloudSchedulingAgent] INFO: Adaptation for Intent ID: 001 - Rebalanced load\n"

/-- A line containing both `Intent received` and `Adaptation for Intent ID`
but no `Intent ID: <digits>` pattern (it holds no digit at all). -/
def mixedLine : String :=
  "t [inChat] INFO: Intent received while Adaptation for Intent ID pending\n"

/-- A record whose fields carry markup-significant characters. -/
def badRecord : IntentRecord :=
  { intent := "Check <script> tags", adaptations := ["</ul><p>injected"] }

/-- A one-entry correlation table carrying markup in its fields. -/
def badTable : CorrelationTable :=
  [("7", badRecord)]

/-! ## Claims -/

/-- C1, counterexample: the id 099 occurs only in an adaptation line, yet
the correlation table built from that log holds no record at all for 099
(the claim demands a placeholder record with a non-empty adaptation list),
because the source appends an adaptation only when its id is already a
key. -/
theorem C1_counterexample :
    strContainsStr adaptOnlyLine "Adaptation for Intent ID" = true ∧
    _extract_intent_id adaptOnlyLine = "099" ∧
    _extract_intent_adaptations [adaptOnlyLine] = [] := by
  decide

/-- C1, amended: for every log and every id that is never the extracted id
of an intent-received line, the correlation table has no record for that
id — the adaptations referencing it are silently dropped, and correlation
(a total function) does not raise. -/
theorem C1_no_record_for_adaptation_only_ids (ls : List String) (id : String)
    (h : ∀ e ∈ ls, strContainsStr e "Intent received" = true → _extract_intent_id e ≠ id) :
    dictGet id (_extract_intent_adaptations ls) = none := by
  unfold _extract_intent_adaptations
  exact dictGet_foldl_none ls [] rfl h

/-- C1, witness: the amended theorem applied to the one-line log whose only
reference to 099 is an adaptation line. -/
theorem C1_witness :
    (∀ e ∈ [adaptOnlyLine], strContainsStr e "Intent received" = true → _extract_intent_id e ≠ "099") ∧
    dictGet "099" (_extract_intent_adaptations [adaptOnlyLine]) = none :=
  ⟨by decide, C1_no_record_for_adaptation_only_ids [adaptOnlyLine] "099" (by decide)⟩

/-- C2, counterexample: before the second intent-received line for id 001
the record holds one adaptation; after processing the second line the
record for 001 has an empty adaptation list (the claim says only the text
is overwritten and the adaptation list is unchanged). -/
theorem C2_counterexample :
    dictGet "001" (_extract_intent_adaptations [recvLine001a, adaptLine001])
      = some { intent := "Reduce energy use", adaptations := ["Workload tuned"] } ∧
    dictGet "001" (_extract_intent_adaptations [recvLine001a, adaptLine001, recvLine001b])
      = some { intent := "Reduce cost", adaptations := [] } := by
  decide

/-- C2, amended: an intent-received line replaces the whole record of its
id: after processing it, the stored record carries the new text and an
empty adaptation list, whatever had accumulated before. -/
theorem C2_received_resets_record (ls : List String) (e : String)
    (h : strContainsStr e "Intent received" = true) :
    dictGet (_extract_intent_id e) (_extract_intent_adaptations (ls ++ [e]))
      = some { intent := _extract_intent_text e, adaptations := [] } := by
  unfold _extract_intent_adaptations
  rw [List.foldl_append, List.foldl_cons, List.foldl_nil, stepEntry_received h,
    dictGet_set_self]

/-- C2, witness: the amended theorem applied after an earlier receipt and
one accumulated adaptation for id 001. -/
theorem C2_witness :
    strContainsStr recvLine001b "Intent received" = true ∧
    dictGet "001" (_extract_intent_adaptations [recvLine001a, adaptLine001, recvLine001b])
      = some { intent := "Reduce cost", adaptations := [] } :=
  ⟨by decide, by exact C2_received_resets_record [recvLine001a, adaptLine001] recvLine001b (by decide)⟩

/-- C3, counterexample: a log whose only line references id 099 in an
adaptation yields zero report sections, while the number of distinct
intent ids referenced anywhere in the lines is one. -/
theorem C3_counterexample :
    (sections (_extract_intent_adaptations [adaptOnlyLine])).length = 0 ∧
    (referencedIds [adaptOnlyLine]).length = 1 := by
  decide

/-- C3, amended: the rendered report consists of the fixed header, one
section per correlation-table entry, and the closing tags, and the number
of sections equals the number of distinct ids of the intent-received lines
(ids referenced only by adaptation lines yield no section). -/
theorem C3_section_count (ls : List String) :
    (sections (_extract_intent_adaptations ls)).length = (receivedIds ls).length ∧
    generate_html_explanation (_extract_intent_adaptations ls)
      = htmlHeader
          ++ (String.join (sections (_extract_intent_adaptations ls)) ++ "</body></html>") := by
  constructor
  · have hk := correlate_keys ls
    have hlen : (sections (_extract_intent_adaptations ls)).length
        = (keysOf (_extract_intent_adaptations ls)).length := by
      simp [sections, keysOf]
    rw [hlen, hk]
  · exact generate_html_explanation_eq _

/-- C4: for every log of the shape `l1 ++ r :: l2` where `r` is an
intent-received line for `id` and no intent-received line for `id` occurs
in `l2`, the record of `id` holds exactly the adaptation texts of the
adaptation events for `id` in `l2`, in their order of appearance in the
log (adaptation order is preserved). -/
theorem C4_adaptation_order (id : String) (l1 l2 : List String) (r : String)
    (hrecv : strContainsStr r "Intent received" = true)
    (hid : _extract_intent_id r = id)
    (h2 : ∀ e ∈ l2, strContainsStr e "Intent received" = true → _extract_intent_id e ≠ id) :
    dictGet id (_extract_intent_adaptations (l1 ++ r :: l2))
      = some { intent := _extract_intent_text r, adaptations := adaptationTexts id l2 } := by
  unfold _extract_intent_adaptations
  rw [show l1 ++ r :: l2 = (l1 ++ [r]) ++ l2 by simp, List.foldl_append]
  have hbase : dictGet id (List.foldl stepEntry [] (l1 ++ [r]))
      = some { intent := _extract_intent_text r, adaptations := [] } := by
    rw [List.foldl_append, List.foldl_cons, List.foldl_nil, stepEntry_received hrecv, hid,
      dictGet_set_self]
  have htrace := dictGet_foldl_trace l2 (List.foldl stepEntry [] (l1 ++ [r])) hbase h2
  simpa using htrace

/-- C4, witness: id 001 is received once; an earlier adaptation line is
dropped and the two later adaptation lines appear in log order. -/
theorem C4_witness :
    (∀ e ∈ [adaptA, adaptB], strContainsStr e "Intent received" = true → _extract_intent_id e ≠ "001") ∧
    dictGet "001" (_extract_intent_adaptations ([adaptLine001early] ++ recvLine001a :: [adaptA, adaptB]))
      = some { intent := "Reduce energy use", adaptations := ["Adjusted schedule", "Rebalanced load"] } :=
  ⟨by decide,
   by exact C4_adaptation_order "001" [adaptLine001early] [adaptA, adaptB] recvLine001a
        (by decide) (by decide) (by decide)⟩

/-- C5, counterexample: id 001 is first referenced (by an adaptation line)
before id 002 is referenced, yet the insertion order of the correlation
table is 002 before 001, because only intent-received lines insert ids. -/
theorem C5_counterexample :
    keysOf (_extract_intent_adaptations [adaptLine001early, recvLine002, recvLine001a])
      = ["002", "001"] ∧
    referencedIds [adaptLine001early, recvLine002, recvLine001a] = ["001", "002"] := by
  decide

/-- C5, amended: correlation is deterministic — identical inputs give
identical tables — and the insertion order of the intent ids equals the
order of first occurrence among the intent-received lines (not the order
of first reference anywhere in the log). -/
theorem C5_deterministic_and_key_order (ls : List String) :
    _extract_intent_adaptations ls = _extract_intent_adaptations ls ∧
    keysOf (_extract_intent_adaptations ls) = receivedIds ls :=
  ⟨rfl, correlate_keys ls⟩

/-- C6, counterexample: on an input without the sought patterns, the three
extraction queries return the defined empty string rather than an absent
value (the source has no `none`-like return on this path). -/
theorem C6_counterexample :
    _extract_intent_id "User session initiated.\n" = "" ∧
    _extract_adaptation "User session initiated.\n" = "" ∧
    _extract_intent_text "User session initiated.\n" = "" := by
  decide

/-- C6, amended: for every input in which the sought patterns are absent
(the id search and the adaptation search find nothing; absence of the
intent-text pattern follows from absence of the id pattern), each of the
three extraction queries returns the defined empty string, and none of
them can throw (they are total functions). -/
theorem C6_extractors_empty_on_absent_pattern (s : String)
    (h1 : searchIntentId s.data = none) (h2 : searchAdaptation s.data = none) :
    _extract_intent_id s = "" ∧ _extract_adaptation s = "" ∧ _extract_intent_text s = "" :=
  ⟨extract_intent_id_eq_empty h1, extract_adaptation_eq_empty h2,
   extract_intent_text_eq_empty h1⟩

/-- C6, witness: the amended theorem applied to a patternless line. -/
theorem C6_witness :
    (searchIntentId ("Monitoring continues nominally\n" : String).data = none ∧
      searchAdaptation ("Monitoring continues nominally\n" : String).data = none) ∧
    (_extract_intent_id "Monitoring continues nominally\n" = "" ∧
      _extract_adaptation "Monitoring continues nominally\n" = "" ∧
      _extract_intent_text "Monitoring continues nominally\n" = "") :=
  ⟨⟨by decide, by decide⟩,
   C6_extractors_empty_on_absent_pattern "Monitoring continues nominally\n" (by decide) (by decide)⟩

/-- C7: the prompt builder never returns a message sequence at all — the
body reads the unbound variable `log_entries` and raises `NameError` on
every call, so the claimed output (one system message followed by one user
message per line, the list the dead code builds as `promptMessages`) is
never produced. -/
theorem C7_prompt_never_returns_messages (system_prompt : String)
    (msgs : List (String × String)) :
    generate_explanation_prompt system_prompt ≠ Except.ok msgs := by
  simp [generate_explanation_prompt]

set_option maxRecDepth 40000 in
/-- C8, counterexample: an adaptation text containing markup is copied
verbatim into the document — the output contains a literal
`<li></ul><p>injected</li>`, so log content is not escaped and can break
the well-formedness of the HTML. -/
theorem C8_counterexample :
    strContainsStr (generate_html_explanation badTable) "<li></ul><p>injected</li>" = true := by
  decide

/-- C8, amended: the renderer escapes nothing — for every table entry the
intent id, the intent text and every adaptation text appear verbatim
(wrapped in the fixed template tags) in the rendered document, so
markup-significant characters in log content reach the output unchanged. -/
theorem C8_verbatim_interpolation (t : CorrelationTable) (intent_id : String)
    (details : IntentRecord) (hmem : (intent_id, details) ∈ t) :
    strContainsStr (generate_html_explanation t) ("<h2>Intent ID: " ++ intent_id ++ "</h2>") = true ∧
    strContainsStr (generate_html_explanation t)
      ("<p><strong>Intent:</strong> " ++ details.intent ++ "</p>") = true ∧
    ∀ a ∈ details.adaptations,
      strContainsStr (generate_html_explanation t) ("<li>" ++ a ++ "</li>") = true :=
  ⟨contains_of_mem_table hmem (contains_h2_sectionFor _ _),
   contains_of_mem_table hmem (contains_intent_sectionFor _ _),
   fun _ ha => contains_of_mem_table hmem (contains_li_sectionFor _ _ ha)⟩

/-- C8, witness: the amended theorem applied to the markup-carrying
table. -/
theorem C8_witness :
    (("7", badRecord) ∈ badTable) ∧
    (strContainsStr (generate_html_explanation badTable) ("<h2>Intent ID: " ++ "7" ++ "</h2>") = true ∧
      strContainsStr (generate_html_explanation badTable)
        ("<p><strong>Intent:</strong> " ++ badRecord.intent ++ "</p>") = true ∧
      ∀ a ∈ badRecord.adaptations,
        strContainsStr (generate_html_explanation badTable) ("<li>" ++ a ++ "</li>") = true) :=
  ⟨by decide, C8_verbatim_interpolation badTable "7" badRecord (by decide)⟩

/-- The line contributed to the plain-text explanation by one
adaptation-bearing entry (the f-string of source line 161). -/
def explanationLineFor (entry : String) : String :=
  "System adaptation for Intent ID " ++ _extract_intent_id entry ++ ": "
    ++ _extract_adaptation entry ++ "\n"

/-- C9: the plain-text explanation is exactly one formatted line per entry
containing `Adaptation for Intent ID`, in input order, and is the empty
string when no entry contains that substring. -/
theorem C9_explanation_format (ls : List String) :
    _generate_explanation ls
      = String.join
          ((ls.filter (fun e => strContainsStr e "Adaptation for Intent ID")).map explanationLineFor) ∧
    ((∀ e ∈ ls, strContainsStr e "Adaptation for Intent ID" = false) →
      _generate_explanation ls = "") := by
  have hmain : _generate_explanation ls
      = String.join
          ((ls.filter (fun e => strContainsStr e "Adaptation for Intent ID")).map explanationLineFor) := by
    unfold _generate_explanation _extract_intent_entries
    have hfun : (fun (explanation entry : String) =>
        explanation ++ "System adaptation for Intent ID " ++ _extract_intent_id entry
          ++ ": " ++ _extract_adaptation entry ++ "\n")
        = fun a e => a ++ explanationLineFor e := by
      funext a e
      unfold explanationLineFor
      simp only [String.append_assoc]
    rw [hfun,
      foldl_append_join explanationLineFor
        (ls.filter (fun e => strContainsStr e "Adaptation for Intent ID")) "",
      String.empty_append]
  refine ⟨hmain, fun hnone => ?_⟩
  rw [hmain, List.filter_eq_nil_iff.mpr (fun e he => by simp [hnone e he])]
  rfl

/-- C9, witness: the second part of the claim theorem applied to a log
with no adaptation-bearing entry. -/
theorem C9_witness : _generate_explanation ["Session started\n"] = "" :=
  (C9_explanation_format ["Session started\n"]).2 (by decide)

/-- C10: an entry containing `Intent received` whose text has no
`Intent ID: <digits>` occurrence still (re)creates the record keyed by the
empty-string id with empty intent text and empty adaptation list; the
`elif` gives the intent-received branch precedence, so such an entry is
never treated as an adaptation even when it also contains
`Adaptation for Intent ID`. -/
theorem C10_received_without_id (ls : List String) (entry : String)
    (h1 : strContainsStr entry "Intent received" = true)
    (h2 : searchIntentId entry.data = none) :
    _extract_intent_adaptations (ls ++ [entry])
      = dictSet "" { intent := "", adaptations := [] } (_extract_intent_adaptations ls) := by
  unfold _extract_intent_adaptations
  rw [List.foldl_append, List.foldl_cons, List.foldl_nil, stepEntry_received h1,
    extract_intent_id_eq_empty h2, extract_intent_text_eq_empty h2]

/-- C10, witness: the claim theorem applied to a line containing both
markers and no id pattern, starting from the empty table. -/
theorem C10_witness :
    (strContainsStr mixedLine "Intent received" = true ∧
      searchIntentId mixedLine.data = none ∧
      strContainsStr mixedLine "Adaptation for Intent ID" = true) ∧
    _extract_intent_adaptations [mixedLine] = [("", { intent := "", adaptations := [] })] :=
  ⟨⟨by decide, by decide, by decide⟩,
   by exact C10_received_without_id [] mixedLine (by decide) (by decide)⟩
